import Mathlib

/-
Verification of the finding-aid scraper in the `trove-unpublished` repository
("Convert a HTML finding aid to JSON" notebook).

The notebook parses an HTML finding aid with BeautifulSoup and rebuilds the
series / sub-series / item hierarchy from heading elements whose CSS classes
encode the nesting level ("ctag-heading c01", "ctag-heading c02", ...).  The
development below is a shallow embedding of that code:

* `HNode` models a parsed HTML node (a BeautifulSoup `NavigableString` or
  `Tag`): tag name, plain attributes, the multi-valued `class` attribute
  (absent when the tag has no class attribute), and child nodes.
* The BeautifulSoup operations the notebook uses are translated one by one:
  `find_all(class_=...)` (`findAllFrom`, returning each match together with
  its structural parent, in document order), `find` with a predicate
  (`findFirst`), `Tag.string` (`stringVal`), `Tag.get_text()` (`getAllText`),
  `next_siblings` (sibling lists carried by `findByIdctx`/`findAllTagCtx`).
* Python exceptions (`KeyError` from a missing attribute, `AttributeError`
  from calling a method on `None`) become the `Except PyErr` monad.
* Python string methods `strip` / `lower` / `replace` / `join` become
  `pyStrip` / `pyLower` / `pyReplaceChar` / `joinSep`.
* The recursion `extract_node_details` / `get_children` is not structurally
  decreasing on the document (a child heading may share the structural parent
  with the node itself), so the embedding carries an explicit fuel counter;
  every run with enough fuel computes exactly the Python result, and all
  general theorems are stated about successful (`Except.ok`) runs.
-/

/-! ### Python string primitives -/

/-- Python `str.strip()`: drop whitespace from both ends. -/
def pyStrip (s : String) : String :=
  ⟨(s.data.dropWhile Char.isWhitespace).reverse.dropWhile Char.isWhitespace |>.reverse⟩

/-- Python `str.lower()` (ASCII case folding, as used on summary labels). -/
def pyLower (s : String) : String := ⟨s.data.map Char.toLower⟩

/-- Python `str.replace(old, new)` for a single-character pattern
(the notebook only uses `replace(" ", "_")`). -/
def pyReplaceChar (c r : Char) (s : String) : String :=
  ⟨s.data.map fun x => if x = c then r else x⟩

/-- Python `sep.join(list)`. -/
def joinSep (sep : String) : List String → String
  | [] => ""
  | [s] => s
  | s :: rest => s ++ sep ++ joinSep sep rest

/-! ### The HTML document model -/

/-- A parsed HTML node, as BeautifulSoup presents it: either a bare string
(`NavigableString`) or a tag with a name, its plain attributes, its
multi-valued `class` attribute (`none` when the attribute is absent), and its
child nodes in document order. -/
inductive HNode where
  | text : String → HNode
  | elem : String → List (String × String) → Option (List String) → List HNode → HNode

mutual
def beqH : HNode → HNode → Bool
  | .text s, .text t => s == t
  | .elem n1 a1 c1 ch1, .elem n2 a2 c2 ch2 =>
      n1 == n2 && a1 == a2 && c1 == c2 && beqHList ch1 ch2
  | _, _ => false
def beqHList : List HNode → List HNode → Bool
  | [], [] => true
  | x :: xs, y :: ys => beqH x y && beqHList xs ys
  | _, _ => false
end

instance : BEq HNode := ⟨beqH⟩

/-- Direct children of a node (`Tag.children`; a `NavigableString` has none). -/
def childNodes : HNode → List HNode
  | .text _ => []
  | .elem _ _ _ ch => ch

/-- The parsed `class` attribute of a tag (`Tag.attrs["class"]`), `none` when
the attribute is absent or the node is not a tag. -/
def classes_of : HNode → Option (List String)
  | .text _ => none
  | .elem _ _ cs _ => cs

/-- `Tag.attrs[k]` as an option (plain, non-class attributes). -/
def getAttr : HNode → String → Option String
  | .text _, _ => none
  | .elem _ attrs _ _, k => attrs.lookup k

/-- BeautifulSoup `Tag.string`: the single string inside the node, descending
through a chain of single-child tags; `None` when the node has zero children
or more than one child. -/
def stringVal : HNode → Option String
  | .text s => some s
  | .elem _ _ _ [c] => stringVal c
  | .elem _ _ _ (_ :: _ :: _) => none
  | .elem _ _ _ [] => none

/-- Python `str(x)` applied to a `Tag.string` result: `str(None)` is the
literal text `"None"`. -/
def str_string (n : HNode) : String :=
  match stringVal n with
  | some s => s
  | none => "None"

mutual
/-- BeautifulSoup `Tag.get_text()`: the concatenation of every string
descendant, in document order. -/
def getAllText : HNode → String
  | .text s => s
  | .elem _ _ _ ch => getAllTextList ch
def getAllTextList : List HNode → String
  | [] => ""
  | c :: rest => getAllText c ++ getAllTextList rest
end

/-- BeautifulSoup class matching for `find_all(class_=q)`: a tag matches when
one of its individual class tokens equals `q`, or the whole space-joined
class attribute equals `q` (this is how a query such as
`"ctag-heading c01"` matches `class="ctag-heading c01"`). A tag without a
class attribute, or a bare string, never matches. -/
def class_match (n : HNode) (q : String) : Bool :=
  match n with
  | .elem _ _ (some cs) _ => cs.contains q || joinSep " " cs == q
  | _ => false

/-- `check_tag` from the notebook: is the node a tag with the given name? -/
def check_tag (n : HNode) (tag : String) : Bool :=
  match n with
  | .elem nm _ _ _ => nm == tag
  | _ => false

/-! ### Document searches (`find_all` / `find`) -/

mutual
/-- `root.find_all(class_=q)`: every matching descendant of `root` in
document (pre-order) order, paired with its structural parent. -/
def findAllFrom (q : String) : HNode → List (HNode × HNode)
  | .text _ => []
  | .elem nm a cl ch => findAllList q (.elem nm a cl ch) ch
def findAllList (q : String) (par : HNode) : List HNode → List (HNode × HNode)
  | [] => []
  | c :: rest =>
      (if class_match c q then [(c, par)] else []) ++ findAllFrom q c ++ findAllList q par rest
end

mutual
/-- `root.find(pred)`: the first descendant satisfying `pred`, in document
order. -/
def findFirst (p : HNode → Bool) : HNode → Option HNode
  | .text _ => none
  | .elem _ _ _ ch => findFirstL p ch
def findFirstL (p : HNode → Bool) : List HNode → Option HNode
  | [] => none
  | c :: rest =>
      if p c then some c else
        match findFirst p c with
        | some r => some r
        | none => findFirstL p rest
end

mutual
/-- `soup.find(id=idv)` together with the found node's following siblings
(what `next_siblings` would iterate over). -/
def findByIdctx (idv : String) : HNode → Option (HNode × List HNode)
  | .text _ => none
  | .elem _ _ _ ch => findByIdList idv ch
def findByIdList (idv : String) : List HNode → Option (HNode × List HNode)
  | [] => none
  | c :: rest =>
      if getAttr c "id" == some idv then some (c, rest)
      else
        match findByIdctx idv c with
        | some r => some r
        | none => findByIdList idv rest
end

mutual
/-- `root.find_all(tag)` with each match paired with its following siblings
(the context `next_siblings` iterates over). -/
def findAllTagCtx (tag : String) : HNode → List (HNode × List HNode)
  | .text _ => []
  | .elem _ _ _ ch => findAllTagList tag ch
def findAllTagList (tag : String) : List HNode → List (HNode × List HNode)
  | [] => []
  | c :: rest =>
      (if check_tag c tag then [(c, rest)] else []) ++ findAllTagCtx tag c ++ findAllTagList tag rest
end

mutual
/-- Is `n` a strict descendant of the given root (by node value)? -/
def is_descendant (n : HNode) : HNode → Bool
  | .text _ => false
  | .elem _ _ _ ch => is_desc_list n ch
def is_desc_list (n : HNode) : List HNode → Bool
  | [] => false
  | c :: rest => beqH n c || is_descendant n c || is_desc_list n rest
end

/-! ### The scraper: node extraction -/

/-- `is_digitised(node)` from the notebook: the structural parent (passed
here directly) carries the class token `"image-and-title"`. -/
def is_digitised (par : HNode) : Bool :=
  match classes_of par with
  | some cs => cs.contains "image-and-title"
  | none => false

/-- A Python exception surfacing from the scraper. -/
inductive PyErr where
  | keyError : String → PyErr
  | attributeError : PyErr
  | recursionLimit : PyErr

/-- `get_first_page(node)` from the notebook: find the first
`<img class="thumbnail">` inside the structural parent and read its
`data-pid` attribute; reading a missing attribute raises `KeyError`; no
image at all returns Python `None`. -/
def get_first_page (par : HNode) : Except PyErr (Option String) :=
  match findFirst (fun n => check_tag n "img" && class_match n "thumbnail") par with
  | some img =>
      match getAttr img "data-pid" with
      | some pid => .ok (some pid)
      | none => .error (.keyError "data-pid")
  | none => .ok none

/-- The `first_page` field produced by `extract_node_details`: initialised to
`""`, overwritten by `get_first_page` when the node is digitised, with
`KeyError` caught (leaving the initial `""`).  `none` models Python `None`,
`some s` a string value. -/
def first_page_of (par : HNode) : Option String :=
  if is_digitised par then
    match get_first_page par with
    | .ok v => v
    | .error _ => some ""
  else some ""

/-- The description fragments collected by the notebook's `get_text(node)`:
for each direct child of the structural parent, a stripped non-empty bare
string is kept, and a `<p>` tag contributes `str(p.string).strip()` —
which is the literal `"None"` when the paragraph has no single string. -/
def descFragments (par : HNode) : List String :=
  (childNodes par).filterMap fun child =>
    match child with
    | .text s => if pyStrip s = "" then none else some (pyStrip s)
    | .elem nm _ _ _ =>
        if nm = "p" then some (pyStrip (str_string child)) else none

/-- `get_text(node)` from the notebook (the `description` field): the
fragments joined with newlines. -/
def get_text (par : HNode) : String := joinSep "\n" (descFragments par)

/-- The CSS class query built by `get_children`:
`f"ctag-heading c0{level + 1}"`, here applied to an arbitrary marker index
`n` (the notebook passes `level + 1`). -/
def ctag_class (n : Nat) : String := "ctag-heading c0" ++ toString n

/-- The extracted record for one finding-aid node: id, title, description,
digitised flag, first page id and child nodes, exactly the dict built by
`extract_node_details`. -/
inductive Details where
  | mk : String → String → String → Bool → Option String → List Details → Details

def Details.id : Details → String
  | .mk i _ _ _ _ _ => i

def Details.title : Details → String
  | .mk _ t _ _ _ _ => t

def Details.description : Details → String
  | .mk _ _ d _ _ _ => d

def Details.digitised : Details → Bool
  | .mk _ _ _ g _ _ => g

def Details.first_page : Details → Option String
  | .mk _ _ _ _ f _ => f

def Details.children : Details → List Details
  | .mk _ _ _ _ _ c => c

mutual
/-- `extract_node_details(node, level)` from the notebook.  `par` is
`node.parent`.  The `id` lookup `node.attrs["id"]` raises `KeyError` when
absent; title is `node.get_text().strip()`; description, digitised flag and
first page are computed from the structural parent; the children are the
recursively extracted headings marked one level deeper found inside the
structural parent (`get_children`).  `fuel` bounds the recursion depth of
the embedding only: with enough fuel the result is the Python one. -/
def extractNodeDetails : Nat → HNode → HNode → Nat → Except PyErr Details
  | 0, _, _, _ => .error .recursionLimit
  | fuel + 1, par, node, level =>
    match getAttr node "id" with
    | none => .error (.keyError "id")
    | some i =>
      match extractChildren fuel (findAllFrom (ctag_class (level + 1)) par) (level + 1) with
      | .error e => .error e
      | .ok ch =>
          .ok (.mk i (pyStrip (getAllText node)) (get_text par)
                (is_digitised par) (first_page_of par) ch)

/-- The loop inside `get_children`: extract every heading found by
`find_all(class_=f"ctag-heading c0{level+1}")` (each paired with its own
structural parent), in document order. -/
def extractChildren : Nat → List (HNode × HNode) → Nat → Except PyErr (List Details)
  | _, [], _ => .ok []
  | 0, _ :: _, _ => .error .recursionLimit
  | fuel + 1, (n, p) :: rest, level =>
    match extractNodeDetails fuel p n level with
    | .error e => .error e
    | .ok d =>
      match extractChildren fuel rest level with
      | .error e => .error e
      | .ok ds => .ok (d :: ds)
end

/-- `get_children(parent, level)` from the notebook (the argument named
`parent` there is the heading node; the search runs over its structural
parent, passed here directly). -/
def get_children (fuel : Nat) (par : HNode) (level : Nat) : Except PyErr (List Details) :=
  extractChildren fuel (findAllFrom (ctag_class (level + 1)) par) (level + 1)

/-- The top-level extraction loop in `convert_finding_aid`:
`for node in soup.find_all(class_="ctag-heading c01"): extract_node_details(node, 1)`. -/
def extract_items (fuel : Nat) (soup : HNode) : Except PyErr (List Details) :=
  extractChildren fuel (findAllFrom (ctag_class 1) soup) 1

/-! ### The scraper: summary extraction -/

/-- `find_sibling_tag(node, tag)`: the first following sibling that is a tag
of the given name (the sibling list is the context carried by the search
that produced the node). -/
def find_sibling_tag (sibs : List HNode) (tag : String) : Option HNode :=
  sibs.find? (fun s => check_tag s tag)

/-- The key normalisation applied to summary labels:
`str(label.string).lower().strip().replace(" ", "_")`. -/
def norm_key (s : String) : String := pyReplaceChar ' ' '_' (pyStrip (pyLower s))

/-- Python dict assignment `d[k] = v`: replace the value in place when the
key exists, otherwise append. -/
def insertKV : List (String × String) → String → String → List (String × String)
  | [], k, v => [(k, v)]
  | (k', v') :: rest, k, v =>
      if k' = k then (k, v) :: rest else (k', v') :: insertKV rest k v

/-- The label/value loop of `get_fa_summary`: for every `<dt>` in the
definition list, find the next `<dd>` sibling and record
`summary_data[norm_key(label)] = value.get_text().strip()`.  When a label
has no following `<dd>`, `find_sibling_tag` returns Python `None` and
`value.get_text()` raises `AttributeError`. -/
def summary_pairs : List (HNode × List HNode) → List (String × String) →
    Except PyErr (List (String × String))
  | [], acc => .ok acc
  | (label, lsibs) :: rest, acc =>
    match find_sibling_tag lsibs "dd" with
    | none => .error .attributeError
    | some dd =>
        summary_pairs rest (insertKV acc (norm_key (str_string label)) (pyStrip (getAllText dd)))

/-- `get_fa_summary(soup)` from the notebook: locate the element with id
`collection-summary`; when absent return the empty mapping; otherwise find
its next `<dl>` sibling (`AttributeError` when there is none, from
`None.find_all`) and collect the label/value pairs. -/
def get_fa_summary (soup : HNode) : Except PyErr (List (String × String)) :=
  match findByIdctx "collection-summary" soup with
  | none => .ok []
  | some (_, sibs) =>
    match find_sibling_tag sibs "dl" with
    | none => .error .attributeError
    | some dl => summary_pairs (findAllTagCtx "dt" dl) []

/-- `get_string_by_id(soup, tag, id)` from the notebook:
`str(soup.find(tag, id=id).string)` with `AttributeError` (no such element)
caught and turned into `""`. -/
def get_string_by_id (soup : HNode) (tag idv : String) : String :=
  match findFirst (fun n => check_tag n tag && (getAttr n "id" == some idv)) soup with
  | none => ""
  | some n => str_string n

/-- `get_fa_details(soup)` from the notebook: the fallback summary. -/
def get_fa_details (soup : HNode) : List (String × String) :=
  [("title", get_string_by_id soup "h1" "contentrow"),
   ("collection_number", get_string_by_id soup "h2" "collection-number")]

/-- `convert_finding_aid` from the notebook, minus the HTTP fetch: build the
summary mapping (falling back to `get_fa_details` when it lacks a `title`
key) and extract the top-level series. -/
def convert_finding_aid (fuel : Nat) (soup : HNode) :
    Except PyErr (List (String × String) × List Details) :=
  match get_fa_summary soup with
  | .error e => .error e
  | .ok fa0 =>
    let fa_data := if (fa0.lookup "title").isSome then fa0 else get_fa_details soup
    match extract_items fuel soup with
    | .error e => .error e
    | .ok items => .ok (fa_data, items)

/-! ### Leaves and paths -/

mutual
/-- `find_leaves` from the notebook, list case: recurse into every node. -/
def find_leaves : List Details → List Details
  | [] => []
  | d :: rest => find_leaves_node d ++ find_leaves rest

/-- `find_leaves` from the notebook, dict case: yield the node iff its
`children` list is empty, otherwise recurse into the children. -/
def find_leaves_node : Details → List Details
  | .mk i t de dg fp ch =>
      if ch.isEmpty then [.mk i t de dg fp ch] else find_leaves ch
end

mutual
/-- Pre-order (document order) listing of a tree of extracted nodes. -/
def preorderN : Details → List Details
  | .mk i t de dg fp ch => .mk i t de dg fp ch :: preorderL ch
def preorderL : List Details → List Details
  | [] => []
  | d :: rest => preorderN d ++ preorderL rest
end

/-- One emitted path record: `{"id": ..., "title": ..., "context": ...}`. -/
structure PathRec where
  id : String
  title : String
  context : String
deriving DecidableEq

mutual
/-- `get_paths(node, paths, titles)` from the notebook with the mutation of
the shared `titles` list made explicit: the function rebinds `paths` to a
fresh list immediately, appends the node's title to `titles`, emits one
record per leaf (the context drops the leaf's own freshly pushed title), and
after each child call pops the child's title.  The returned pair is the
Python return value together with the final state of the caller's `titles`
list object. -/
def get_paths : Details → List String → List PathRec × List String
  | .mk i t _ _ _ ch, titles =>
    let titles := titles ++ [t]
    if ch.isEmpty then
      ([⟨i, t, joinSep " / " titles.dropLast⟩], titles)
    else
      get_paths_children ch titles

/-- The `for i in node["children"]` loop of `get_paths`: extend with the
child's records, then `titles.pop()`. -/
def get_paths_children : List Details → List String → List PathRec × List String
  | [], titles => ([], titles)
  | d :: rest, titles =>
    let r := get_paths d titles
    let rs := get_paths_children rest r.2.dropLast
    (r.1 ++ rs.1, rs.2)
end

/-- The notebook's path-building cell:
`paths = []; for series in fa["items"]: paths.extend(get_paths(series, [], []))` —
every top-level call passes freshly created empty lists. -/
def pathsLoop : List Details → List PathRec
  | [] => []
  | s :: rest => (get_paths s []).1 ++ pathsLoop rest

/-- The same cell with the one piece of state that persists between separate
invocations made explicit: the mutable default-argument objects of
`get_paths`.  The loop passes explicit fresh lists at every call site, so the
default objects (modelled by `store`) are never read or written by a run. -/
def pathsLoopRun : List Details → List String → List PathRec × List String
  | [], store => ([], store)
  | s :: rest, store =>
    let r := (get_paths s []).1
    let rs := pathsLoopRun rest store
    (r ++ rs.1, rs.2)

mutual
/-- Specification-side description of the leaf paths (from the spec's
PathBuilder contract): a depth-first walk carrying the list of ancestor
titles; a leaf contributes one `(ancestors, leaf)` pair, a branch adds its
title to the ancestor chain of its children. -/
def spec_leaf_paths : List String → Details → List (List String × Details)
  | anc, .mk i t de dg fp ch =>
    if ch.isEmpty then [(anc, .mk i t de dg fp ch)]
    else spec_leaf_paths_list (anc ++ [t]) ch
def spec_leaf_paths_list : List String → List Details → List (List String × Details)
  | _, [] => []
  | anc, d :: rest => spec_leaf_paths anc d ++ spec_leaf_paths_list anc rest
end

/-- The record the spec demands for a leaf with the given ancestor chain. -/
def pathOf (p : List String × Details) : PathRec :=
  ⟨p.2.id, p.2.title, joinSep " / " p.1⟩

/-- Modelled from the spec: the CSS-class level-marker scheme of the source
markup, described as `c01, c02, …` — an integer index zero-padded to two
digits (the scheme of EAD container levels, continuing `c09, c10, c11, …`);
the corresponding full heading class. -/
def spec_marker_class (n : Nat) : String :=
  "ctag-heading c" ++ (if n < 10 then "0" ++ toString n else toString n)

/-! ### Helper lemmas -/

theorem dropLast_append_single (l : List String) (a : String) :
    (l ++ [a]).dropLast = l := by
  induction l with
  | nil => rfl
  | cons x xs ih => simp [List.dropLast, ih]

mutual
theorem beqH_refl : ∀ a : HNode, beqH a a = true
  | .text s => by simp [beqH]
  | .elem n a c ch => by simp [beqH, beqHList_refl ch]
theorem beqHList_refl : ∀ l : List HNode, beqHList l l = true
  | [] => by simp [beqHList]
  | x :: xs => by simp [beqHList, beqH_refl x, beqHList_refl xs]
end

/-- Inversion of a successful `extract_node_details` run. -/
theorem extractNodeDetails_ok_inv (fuel : Nat) (par node : HNode) (level : Nat) (d : Details)
    (h : extractNodeDetails fuel par node level = .ok d) :
    ∃ f i ch, fuel = f + 1 ∧ getAttr node "id" = some i
      ∧ extractChildren f (findAllFrom (ctag_class (level + 1)) par) (level + 1) = .ok ch
      ∧ d = .mk i (pyStrip (getAllText node)) (get_text par)
            (is_digitised par) (first_page_of par) ch := by
  cases fuel with
  | zero => simp [extractNodeDetails] at h
  | succ f =>
    rw [extractNodeDetails] at h
    cases hid : getAttr node "id" with
    | none => rw [hid] at h; simp at h
    | some i =>
      rw [hid] at h
      cases hch : extractChildren f (findAllFrom (ctag_class (level + 1)) par) (level + 1) with
      | error e => rw [hch] at h; simp at h
      | ok ch =>
        rw [hch] at h
        simp only [Except.ok.injEq] at h
        exact ⟨f, i, ch, rfl, rfl, hch, h.symm⟩

/-- A successful `get_children` loop produces one record per found heading,
each record coming from a successful extraction of the corresponding heading,
and conversely every found heading was successfully extracted. -/
theorem extractChildren_ok (fuel : Nat) :
    ∀ (l : List (HNode × HNode)) (level : Nat) (ds : List Details),
      extractChildren fuel l level = .ok ds →
      ds.length = l.length
      ∧ (∀ d ∈ ds, ∃ np, np ∈ l ∧ ∃ f, extractNodeDetails f np.2 np.1 level = .ok d)
      ∧ (∀ np ∈ l, ∃ f d, extractNodeDetails f np.2 np.1 level = .ok d) := by
  induction fuel with
  | zero =>
    intro l level ds h
    cases l with
    | nil =>
      simp [extractChildren] at h
      subst h
      exact ⟨rfl, by simp, by simp⟩
    | cons x rest => simp [extractChildren] at h
  | succ f ih =>
    intro l level ds h
    cases l with
    | nil =>
      simp [extractChildren] at h
      subst h
      exact ⟨rfl, by simp, by simp⟩
    | cons x rest =>
      obtain ⟨n, p⟩ := x
      rw [extractChildren] at h
      cases hd : extractNodeDetails f p n level with
      | error e => rw [hd] at h; simp at h
      | ok d0 =>
        rw [hd] at h
        cases hrest : extractChildren f rest level with
        | error e => rw [hrest] at h; simp at h
        | ok ds0 =>
          rw [hrest] at h
          simp only [Except.ok.injEq] at h
          subst h
          obtain ⟨hlen, hmem, hall⟩ := ih rest level ds0 hrest
          refine ⟨by simp [hlen], ?_, ?_⟩
          · intro d hdm
            rcases List.mem_cons.mp hdm with hdm | hdm
            · exact ⟨(n, p), List.mem_cons_self _ _, f, hdm ▸ hd⟩
            · obtain ⟨np, hnp, hf⟩ := hmem d hdm
              exact ⟨np, List.mem_cons_of_mem _ hnp, hf⟩
          · intro np hnp
            rcases List.mem_cons.mp hnp with hnp | hnp
            · exact ⟨f, d0, hnp ▸ hd⟩
            · exact hall np hnp

mutual
/-- Everything `find_all(class_=q)` returns matches the class query and is a
strict descendant of the searched root. -/
theorem mem_findAllFrom : ∀ (q : String) (root : HNode) (np : HNode × HNode),
    np ∈ findAllFrom q root →
    class_match np.1 q = true ∧ is_descendant np.1 root = true
  | q, .text s, np => by simp [findAllFrom]
  | q, .elem nm a cl ch, np => by
    intro h
    rw [findAllFrom] at h
    have := mem_findAllList q (.elem nm a cl ch) ch np h
    exact ⟨this.1, by rw [is_descendant]; exact this.2⟩

theorem mem_findAllList : ∀ (q : String) (par : HNode) (l : List HNode) (np : HNode × HNode),
    np ∈ findAllList q par l →
    class_match np.1 q = true ∧ is_desc_list np.1 l = true
  | q, par, [], np => by simp [findAllList]
  | q, par, c :: rest, np => by
    intro h
    rw [findAllList] at h
    simp only [List.mem_append] at h
    rcases h with (h | h) | h
    · have hc : class_match c q = true := by
        by_contra hq
        simp [hq] at h
      rw [if_pos hc] at h
      simp only [List.mem_singleton] at h
      subst h
      refine ⟨hc, ?_⟩
      rw [is_desc_list]
      simp [beqH_refl]
    · have := mem_findAllFrom q c np h
      refine ⟨this.1, ?_⟩
      rw [is_desc_list]
      simp [this.2]
    · have := mem_findAllList q par rest np h
      refine ⟨this.1, ?_⟩
      rw [is_desc_list]
      simp [this.2]
end

mutual
/-- After `get_paths(node, ..., titles)` returns, the caller's `titles` list
object holds exactly its previous content plus the node's title (the net
effect of the internal pushes and pops). -/
theorem get_paths_titles : ∀ (d : Details) (ts : List String),
    (get_paths d ts).2 = ts ++ [d.title]
  | .mk i t de dg fp ch, ts => by
    rw [get_paths]
    by_cases hch : ch.isEmpty
    · simp [hch, Details.title]
    · rw [if_neg hch]
      rw [get_paths_children_titles ch (ts ++ [t])]
      simp [Details.title]

theorem get_paths_children_titles : ∀ (l : List Details) (ts : List String),
    (get_paths_children l ts).2 = ts
  | [], ts => by rw [get_paths_children]
  | d :: rest, ts => by
    rw [get_paths_children]
    simp only
    rw [get_paths_children_titles rest (get_paths d ts).2.dropLast]
    rw [get_paths_titles d ts, dropLast_append_single]
end

mutual
/-- The records returned by `get_paths(node, ..., titles)` are exactly one
per leaf below the node, in document order, each carrying the
`" / "`-joined ancestor titles (starting from the state of the title stack
at the call). -/
theorem get_paths_spec : ∀ (d : Details) (ts : List String),
    (get_paths d ts).1 = (spec_leaf_paths ts d).map pathOf
  | .mk i t de dg fp ch, ts => by
    rw [get_paths, spec_leaf_paths]
    by_cases hch : ch.isEmpty
    · simp [hch, pathOf, Details.id, Details.title, dropLast_append_single]
    · rw [if_neg hch, if_neg hch]
      exact get_paths_children_spec ch (ts ++ [t])

theorem get_paths_children_spec : ∀ (l : List Details) (ts : List String),
    (get_paths_children l ts).1 = (spec_leaf_paths_list ts l).map pathOf
  | [], ts => by rw [get_paths_children, spec_leaf_paths_list]; rfl
  | d :: rest, ts => by
    rw [get_paths_children, spec_leaf_paths_list]
    simp only [List.map_append]
    rw [get_paths_titles d ts, dropLast_append_single]
    rw [get_paths_spec d ts, get_paths_children_spec rest ts]
end

mutual
/-- The leaves listed by `spec_leaf_paths` are exactly `find_leaves`,
independently of the ancestor chain. -/
theorem spec_leaf_paths_snd : ∀ (d : Details) (ts : List String),
    (spec_leaf_paths ts d).map Prod.snd = find_leaves_node d
  | .mk i t de dg fp ch, ts => by
    rw [spec_leaf_paths, find_leaves_node]
    by_cases hch : ch.isEmpty
    · simp [hch]
    · rw [if_neg hch, if_neg hch]
      exact spec_leaf_paths_list_snd ch (ts ++ [t])

theorem spec_leaf_paths_list_snd : ∀ (l : List Details) (ts : List String),
    (spec_leaf_paths_list ts l).map Prod.snd = find_leaves l
  | [], ts => by rw [spec_leaf_paths_list, find_leaves]; rfl
  | d :: rest, ts => by
    rw [spec_leaf_paths_list, find_leaves]
    simp only [List.map_append]
    rw [spec_leaf_paths_snd d ts, spec_leaf_paths_list_snd rest ts]
end

theorem pathsLoop_eq_spec : ∀ items : List Details,
    pathsLoop items = (spec_leaf_paths_list [] items).map pathOf
  | [] => by rw [pathsLoop, spec_leaf_paths_list]; rfl
  | s :: rest => by
    rw [pathsLoop, spec_leaf_paths_list]
    simp only [List.map_append]
    rw [get_paths_spec s [], pathsLoop_eq_spec rest]

theorem pathsLoopRun_eq : ∀ (items : List Details) (store : List String),
    pathsLoopRun items store = (pathsLoop items, store)
  | [], store => by rw [pathsLoopRun, pathsLoop]
  | s :: rest, store => by
    rw [pathsLoopRun, pathsLoop]
    simp [pathsLoopRun_eq rest store]

mutual
/-- `find_leaves` keeps exactly the childless nodes of the pre-order
traversal, in order. -/
theorem find_leaves_node_filter : ∀ d : Details,
    find_leaves_node d = (preorderN d).filter (fun x => x.children.isEmpty)
  | .mk i t de dg fp ch => by
    rw [find_leaves_node, preorderN]
    by_cases hch : ch.isEmpty
    · simp [List.filter, Details.children, hch, List.isEmpty_iff.mp hch, preorderL, find_leaves_filter]
    · simp [List.filter, Details.children, hch, find_leaves_filter ch]

theorem find_leaves_filter : ∀ l : List Details,
    find_leaves l = (preorderL l).filter (fun x => x.children.isEmpty)
  | [] => by rw [find_leaves, preorderL]; rfl
  | d :: rest => by
    rw [find_leaves, preorderL]
    simp only [List.filter_append]
    rw [find_leaves_node_filter d, find_leaves_filter rest]
end

/-! ### Claim theorems -/

/-- C2: for every tree of extracted nodes, the notebook's path-building loop
(`get_paths` applied to each top-level series with fresh lists) emits exactly
one path record per leaf — the map of `pathOf` over the leaf/ancestor pairs
of the specification walk — and those pairs list exactly the leaves that
`find_leaves` yields, in the same (document) order; each record's context is
the `" / "`-joined chain of ancestor titles from the root series down to the
leaf's parent, the leaf's own title excluded. -/
theorem c2_paths_per_leaf : ∀ items : List Details,
    pathsLoop items = (spec_leaf_paths_list [] items).map pathOf
    ∧ (spec_leaf_paths_list [] items).map Prod.snd = find_leaves items := by
  intro items
  exact ⟨pathsLoop_eq_spec items, spec_leaf_paths_list_snd items []⟩

/-- C3: the path-building loop is idempotent across invocations: running it a
second time (with the state that could persist between runs — the mutable
default-argument objects of `get_paths`, modelled by the threaded store, and
any residual title stack) returns the same records as the first run; the
store is never modified because every call site passes fresh empty lists;
and no state leaks between sibling top-level series traversals (the result
over a concatenation of series is the concatenation of the independent
results). -/
theorem c3_idempotent :
    (∀ (items : List Details) (store : List String),
       (pathsLoopRun items (pathsLoopRun items store).2).1 = (pathsLoopRun items store).1
       ∧ (pathsLoopRun items store).2 = store)
    ∧ (∀ xs ys : List Details, pathsLoop (xs ++ ys) = pathsLoop xs ++ pathsLoop ys) := by
  constructor
  · intro items store
    rw [pathsLoopRun_eq items store, pathsLoopRun_eq items (pathsLoop items, store).2]
    exact ⟨rfl, rfl⟩
  · intro xs ys
    induction xs with
    | nil => rw [pathsLoop]; rfl
    | cons s rest ih =>
      rw [List.cons_append, pathsLoop, pathsLoop, ih, List.append_assoc]

/-- C8: `find_leaves` yields a node iff its `children` list is empty, in
pre-order left-to-right (document) order — it equals the childless-filtered
pre-order traversal; and for a document whose level-1 headings contain no
level-2 heading in their structural parents, a successful `extract` returns
one node per level-1 heading, each with empty `children`, and `find_leaves`
returns exactly those nodes in the same order. -/
theorem c8_find_leaves :
    (∀ items : List Details,
       find_leaves items = (preorderL items).filter (fun d => d.children.isEmpty))
    ∧ (∀ (fuel : Nat) (doc : HNode) (items : List Details),
       (∀ np ∈ findAllFrom (ctag_class 1) doc, findAllFrom (ctag_class 2) np.2 = []) →
       extract_items fuel doc = .ok items →
       items.length = (findAllFrom (ctag_class 1) doc).length
       ∧ (∀ d ∈ items, d.children = [])
       ∧ find_leaves items = items) := by
  constructor
  · exact find_leaves_filter
  · intro fuel doc items hflat hok
    rw [extract_items] at hok
    obtain ⟨hlen, hmem, -⟩ := extractChildren_ok fuel _ 1 items hok
    have hchl : ∀ d ∈ items, d.children = [] := by
      intro d hd
      obtain ⟨np, hnp, f, hf⟩ := hmem d hd
      obtain ⟨f', i, ch, -, -, hch, hdeq⟩ := extractNodeDetails_ok_inv f np.2 np.1 1 d hf
      rw [hflat np hnp] at hch
      have : ch = [] := by
        cases f' with
        | zero => simpa [extractChildren, eq_comm] using hch
        | succ g => simpa [extractChildren, eq_comm] using hch
      subst this
      rw [hdeq]
      rfl
    refine ⟨hlen, hchl, ?_⟩
    clear hlen hmem hok
    induction items with
    | nil => rfl
    | cons d rest ih =>
      have hd := hchl d (List.mem_cons_self _ _)
      rw [find_leaves]
      cases d with
      | mk i t de dg fp ch =>
        have : ch = [] := hd
        subst this
        rw [find_leaves_node]
        simp only [List.isEmpty_nil, if_true]
        rw [ih (fun x hx => hchl x (List.mem_cons_of_mem _ hx))]
        rfl

/-- The number of children of a successfully extracted node is the number of
headings found by the built class query over the structural parent. -/
theorem children_length_of_ok :
    ∀ (fuel : Nat) (par node : HNode) (level : Nat) (d : Details),
      extractNodeDetails fuel par node level = .ok d →
      d.children.length = (findAllFrom (ctag_class (level + 1)) par).length := by
  intro fuel par node level d h
  obtain ⟨f, i, ch, -, -, hch, hdeq⟩ := extractNodeDetails_ok_inv fuel par node level d h
  obtain ⟨hlen, -, -⟩ := extractChildren_ok f _ (level + 1) ch hch
  have hdch : d.children = ch := by rw [hdeq]; rfl
  rw [hdch]
  exact hlen

/-- C1 (amended): for every node produced by a successful extraction, the
children are exactly one record per heading found by
`find_all(class_=f"ctag-heading c0{level+1}")` over the node's structural
parent — each child record arises from a successful extraction of a heading
that matches the class marker one level deeper and is a strict descendant of
the node's structural parent.  (The produced value is a tree by
construction: `Details` is an inductive value, so no produced node can
contain itself and each record has a single position.  What the original
claim adds — that no such heading can belong to a sibling node's subtree —
is refuted by `c1_counterexample`.) -/
theorem c1_children_scope :
    ∀ (fuel : Nat) (par node : HNode) (level : Nat) (d : Details),
      extractNodeDetails fuel par node level = .ok d →
      d.children.length = (findAllFrom (ctag_class (level + 1)) par).length
      ∧ ∀ c ∈ d.children, ∃ np,
          np ∈ findAllFrom (ctag_class (level + 1)) par
          ∧ class_match np.1 (ctag_class (level + 1)) = true
          ∧ is_descendant np.1 par = true
          ∧ ∃ f, extractNodeDetails f np.2 np.1 (level + 1) = .ok c := by
  intro fuel par node level d h
  refine ⟨children_length_of_ok fuel par node level d h, ?_⟩
  obtain ⟨f, i, ch, -, -, hch, hdeq⟩ := extractNodeDetails_ok_inv fuel par node level d h
  obtain ⟨-, hmem, -⟩ := extractChildren_ok f _ (level + 1) ch hch
  have hdch : d.children = ch := by rw [hdeq]; rfl
  rw [hdch]
  intro c hc
  obtain ⟨np, hnp, hf⟩ := hmem c hc
  obtain ⟨hcm, hdesc⟩ := mem_findAllFrom (ctag_class (level + 1)) par np hnp
  exact ⟨np, hnp, hcm, hdesc, hf⟩

def hbC1 : HNode := .elem "h3" [("id", "b")] (some ["ctag-heading", "c02"]) [.text "B"]

def div3C1 : HNode := .elem "div" [] none [hbC1]

def h2C1 : HNode := .elem "h3" [("id", "s2")] (some ["ctag-heading", "c01"]) [.text "S2"]

def div2C1 : HNode := .elem "div" [] none [h2C1, div3C1]

def h1C1 : HNode := .elem "h3" [("id", "s1")] (some ["ctag-heading", "c01"]) [.text "S1"]

def div1C1 : HNode := .elem "div" [] none [h1C1, div2C1]

/-- A document whose second series `s2` (with its subtree, including the
level-2 heading `b`) is nested inside the structural parent of the first
series `s1`. -/
def soupC1 : HNode := .elem "body" [] none [div1C1]

def bRec : Details := .mk "b" "B" "" false (some "") []

def s1Rec : Details := .mk "s1" "S1" "" false (some "") [bRec]

def s2Rec : Details := .mk "s2" "S2" "" false (some "") [bRec]

/-- C1 (counterexample): extraction attributes the heading `b` — which lies
inside the structural-parent subtree of the sibling series `s2` (it is the
sole level-2 heading of `s2`'s own subtree) — to the children of `s1` as
well: both produced sibling records carry a child with `b`'s id, so a
node's `children` is not free of headings belonging to a sibling node's
subtree, and the same source heading gets two parents in the output. -/
theorem c1_counterexample :
    extract_items 8 soupC1 = .ok [s1Rec, s2Rec]
    ∧ findAllFrom (ctag_class 2) div2C1 = [(hbC1, div3C1)]
    ∧ is_descendant hbC1 div2C1 = true
    ∧ s1Rec.children = [bRec]
    ∧ s2Rec.children = [bRec]
    ∧ getAttr hbC1 "id" = some "b"
    ∧ bRec.id = "b" := by
  exact ⟨rfl, rfl, rfl, rfl, rfl, rfl, rfl⟩

/-- C4 (amended): `get_children` builds its marker query by string
concatenation, `"ctag-heading c0" ++ toString (level+1)`, which coincides
with the spec's zero-padded two-digit marker scheme only for marker indices
up to 9; from index 10 on (`c10`, `c11`, ...) the built query differs from
the scheme marker, so extraction accepts an arbitrary integer level as a
parameter but recognises children only at single-digit marker indices; the
children of a successful extraction are always exactly the headings matching
the built query. -/
theorem c4_marker_format :
    (∀ n, n < 10 → ctag_class n = spec_marker_class n)
    ∧ (∀ n, n < 100 → 10 ≤ n → ctag_class n ≠ spec_marker_class n)
    ∧ (∀ (fuel : Nat) (par node : HNode) (level : Nat) (d : Details),
        extractNodeDetails fuel par node level = .ok d →
        d.children.length = (findAllFrom (ctag_class (level + 1)) par).length) := by
  refine ⟨by decide, by decide, ?_⟩
  exact children_length_of_ok

def h9C4 : HNode := .elem "h3" [("id", "x9")] (some ["ctag-heading", "c09"]) [.text "L9"]

def h10C4 : HNode := .elem "h3" [("id", "x10")] (some ["ctag-heading", "c10"]) [.text "L10"]

/-- A structural parent holding a level-9 heading and, one level deeper by
the spec's marker scheme, a heading marked `c10`. -/
def par9C4 : HNode := .elem "div" [] none [h9C4, h10C4]

/-- C4 (counterexample): at nesting level 9 the built query is
`"ctag-heading c010"`, not the scheme marker `"ctag-heading c10"`; the
document contains a heading marked exactly one level deeper than the level-9
node (by the scheme), yet extraction returns it with no children — the
child heading is not recognised, so extraction is limited by the hard-coded
`"c0"` marker format. -/
theorem c4_counterexample :
    ctag_class 10 = "ctag-heading c010"
    ∧ spec_marker_class 10 = "ctag-heading c10"
    ∧ ctag_class 10 ≠ spec_marker_class 10
    ∧ findAllFrom (spec_marker_class 10) par9C4 = [(h10C4, par9C4)]
    ∧ class_match h10C4 (ctag_class 10) = false
    ∧ extractNodeDetails 3 par9C4 h9C4 9 = .ok (.mk "x9" "L9" "" false (some "") []) := by
  exact ⟨rfl, rfl, by decide, rfl, by decide, rfl⟩

/-- C5: a heading with no `id` attribute makes `extract_node_details` raise
`KeyError("id")` immediately (the spec's `MissingIdentifier`), before any
part of the node is emitted; and no extraction that visits such a heading
can succeed — every level-1 heading of a successfully converted document has
an `id` attribute, so the document is never silently emitted with a missing
id. -/
theorem c5_missing_identifier :
    (∀ (fuel : Nat) (par node : HNode) (level : Nat),
       getAttr node "id" = none →
       extractNodeDetails (fuel + 1) par node level = .error (.keyError "id"))
    ∧ (∀ (fuel : Nat) (doc : HNode) (items : List Details),
       extract_items fuel doc = .ok items →
       ∀ np ∈ findAllFrom (ctag_class 1) doc, getAttr np.1 "id" ≠ none) := by
  constructor
  · intro fuel par node level h
    rw [extractNodeDetails, h]
  · intro fuel doc items hok np hnp hnone
    rw [extract_items] at hok
    obtain ⟨-, -, hall⟩ := extractChildren_ok fuel _ 1 items hok
    obtain ⟨f, d, hf⟩ := hall np hnp
    obtain ⟨f', i, ch, -, hid, -, -⟩ := extractNodeDetails_ok_inv f np.2 np.1 1 d hf
    rw [hnone] at hid
    exact Option.noConfusion hid

def thumbPred : HNode → Bool := fun n => check_tag n "img" && class_match n "thumbnail"

/-- C6: `is_digitised` is true exactly when the structural parent carries the
`image-and-title` marker class; a successful extraction copies
`is_digitised` and the computed first page into the record; when digitised
and the parent subtree holds a thumbnail image with a `data-pid`, the first
page is that pid; with no thumbnail image the field becomes Python `None`;
with a thumbnail image lacking the attribute the raised `KeyError` is caught
and the field keeps its initial `""` — and in every case the thumbnail logic
never fails the extraction: with the id present and the children extracted,
the node is returned successfully. -/
theorem c6_digitised_first_page :
    (∀ par, is_digitised par = true ↔ ∃ cs, classes_of par = some cs ∧ "image-and-title" ∈ cs)
    ∧ (∀ (fuel : Nat) (par node : HNode) (level : Nat) (d : Details),
        extractNodeDetails fuel par node level = .ok d →
        d.digitised = is_digitised par ∧ d.first_page = first_page_of par)
    ∧ (∀ (par img : HNode) (pid : String), is_digitised par = true →
        findFirst thumbPred par = some img → getAttr img "data-pid" = some pid →
        first_page_of par = some pid)
    ∧ (∀ par : HNode, is_digitised par = true →
        findFirst thumbPred par = none → first_page_of par = none)
    ∧ (∀ par img : HNode, is_digitised par = true →
        findFirst thumbPred par = some img → getAttr img "data-pid" = none →
        first_page_of par = some "")
    ∧ (∀ (fuel : Nat) (par node : HNode) (level : Nat) (i : String) (ch : List Details),
        getAttr node "id" = some i →
        extractChildren fuel (findAllFrom (ctag_class (level + 1)) par) (level + 1) = .ok ch →
        extractNodeDetails (fuel + 1) par node level =
          .ok (.mk i (pyStrip (getAllText node)) (get_text par)
                (is_digitised par) (first_page_of par) ch)) := by
  refine ⟨?_, ?_, ?_, ?_, ?_, ?_⟩
  · intro par
    cases par with
    | text s => simp [is_digitised, classes_of]
    | elem nm a cs ch =>
      cases cs with
      | none => simp [is_digitised, classes_of]
      | some l => simp [is_digitised, classes_of]
  · intro fuel par node level d h
    obtain ⟨f, i, ch, -, -, -, hdeq⟩ := extractNodeDetails_ok_inv fuel par node level d h
    rw [hdeq]
    exact ⟨rfl, rfl⟩
  · intro par img pid hdig hfind hattr
    have hf : findFirst (fun n => check_tag n "img" && class_match n "thumbnail") par
        = some img := hfind
    simp [first_page_of, get_first_page, hdig, hf, hattr]
  · intro par hdig hfind
    have hf : findFirst (fun n => check_tag n "img" && class_match n "thumbnail") par
        = none := hfind
    simp [first_page_of, get_first_page, hdig, hf]
  · intro par img hdig hfind hattr
    have hf : findFirst (fun n => check_tag n "img" && class_match n "thumbnail") par
        = some img := hfind
    simp [first_page_of, get_first_page, hdig, hf, hattr]
  · intro fuel par node level i ch hid hch
    rw [extractNodeDetails, hid, hch]

/-- When some label in the list has no following `<dd>` sibling, the
label/value loop of `get_fa_summary` raises `AttributeError`, whatever the
accumulated mapping is. -/
theorem summary_pairs_err :
    ∀ (L : List (HNode × List HNode)) (acc : List (String × String)) (label : HNode)
      (lsibs : List HNode),
      (label, lsibs) ∈ L → find_sibling_tag lsibs "dd" = none →
      summary_pairs L acc = .error .attributeError := by
  intro L
  induction L with
  | nil => intro acc label lsibs h; simp at h
  | cons x rest ih =>
    intro acc label lsibs hmem hnone
    obtain ⟨l0, s0⟩ := x
    rw [summary_pairs]
    cases h0 : find_sibling_tag s0 "dd" with
    | none => rfl
    | some dd =>
      rcases List.mem_cons.mp hmem with heq | hmem'
      · obtain ⟨h1, h2⟩ := Prod.mk.injEq .. ▸ heq
        exact absurd h0 (by rw [← h2] at *; rw [hnone] at *; simp_all)
      · exact ih _ label lsibs hmem' hnone

/-- C7 (amended): inside an existing collection-summary region, a label
(`<dt>`) with no following `<dd>` sibling makes summary extraction fail with
`AttributeError` — the label is not skipped (see `c7_counterexample`); the
fallback title/collection-number extraction never fails: a missing element
resolves to the empty string. -/
theorem c7_label_without_value :
    (∀ (soup hd dl label : HNode) (sibs lsibs : List HNode),
       findByIdctx "collection-summary" soup = some (hd, sibs) →
       find_sibling_tag sibs "dl" = some dl →
       (label, lsibs) ∈ findAllTagCtx "dt" dl →
       find_sibling_tag lsibs "dd" = none →
       get_fa_summary soup = .error .attributeError)
    ∧ (∀ soup : HNode,
       (findFirst (fun n => check_tag n "h1" && (getAttr n "id" == some "contentrow")) soup = none →
          get_string_by_id soup "h1" "contentrow" = "")
       ∧ (findFirst (fun n => check_tag n "h2" && (getAttr n "id" == some "collection-number")) soup = none →
          get_string_by_id soup "h2" "collection-number" = "")) := by
  constructor
  · intro soup hd dl label sibs lsibs hfound hdl hmem hnone
    rw [get_fa_summary, hfound]
    simp only [hdl]
    exact summary_pairs_err _ [] label lsibs hmem hnone
  · intro soup
    constructor
    · intro h; rw [get_string_by_id, h]
    · intro h; rw [get_string_by_id, h]

/-- C9: when the structural parent has a direct `<p>` child without a single
string value (for example a paragraph containing nested markup), the
collected description fragments contain the literal text `"None"` in place
of that paragraph's text, and the extracted node's description is the
newline-join of those fragments. -/
theorem c9_none_in_description :
    ∀ (fuel : Nat) (par node : HNode) (level : Nat) (d : Details)
      (a : List (String × String)) (cs : Option (List String)) (ch : List HNode),
      extractNodeDetails fuel par node level = .ok d →
      HNode.elem "p" a cs ch ∈ childNodes par →
      stringVal (HNode.elem "p" a cs ch) = none →
      "None" ∈ descFragments par ∧ d.description = joinSep "\n" (descFragments par) := by
  intro fuel par node level d a cs ch hok hmem hstr
  constructor
  · rw [descFragments]
    refine List.mem_filterMap.mpr ⟨HNode.elem "p" a cs ch, hmem, ?_⟩
    simp only [str_string, hstr, if_pos rfl]
    rfl
  · obtain ⟨f, i, ch', -, -, -, hdeq⟩ := extractNodeDetails_ok_inv fuel par node level d hok
    rw [hdeq]
    rfl

/-- C10: the fallback summary (title and collection number by fixed element
ids) is used exactly when the collection-summary mapping lacks a `title`
key: in that case the summary part of the conversion result is exactly the
two fallback fields (all previously collected pairs discarded), and
otherwise it is exactly the collected mapping. -/
theorem c10_summary_fallback :
    ∀ (fuel : Nat) (soup : HNode) (m : List (String × String))
      (res : List (String × String) × List Details),
      get_fa_summary soup = .ok m →
      convert_finding_aid fuel soup = .ok res →
      (m.lookup "title" = none → res.1 = get_fa_details soup)
      ∧ (∀ v, m.lookup "title" = some v → res.1 = m) := by
  intro fuel soup m res hsum hconv
  rw [convert_finding_aid, hsum] at hconv
  simp only at hconv
  cases hitems : extract_items fuel soup with
  | error e => rw [hitems] at hconv; exact Except.noConfusion hconv
  | ok items =>
    rw [hitems] at hconv
    simp only [Except.ok.injEq] at hconv
    constructor
    · intro hnone
      rw [← hconv]
      simp [hnone]
    · intro v hsome
      rw [← hconv]
      simp [hsome]

/-! ### Concrete documents for counterexamples and witnesses -/

def hC5noid : HNode := .elem "h3" [] (some ["ctag-heading", "c01"]) [.text "X"]

def parC5 : HNode := .elem "div" [] none [hC5noid]

def hC5 : HNode := .elem "h3" [("id", "s1")] (some ["ctag-heading", "c01"]) [.text "T"]

def divC5 : HNode := .elem "div" [] none [hC5]

def soupC5b : HNode := .elem "body" [] none [divC5]

def recC5 : Details := .mk "s1" "T" "" false (some "") []

/-- C5 (witness): the concrete heading without an `id` raises
`KeyError("id")`, and the level-1 heading of a successfully converted
concrete document has an `id`. -/
theorem c5_witness :
    getAttr hC5noid "id" = none
    ∧ extractNodeDetails 1 parC5 hC5noid 1 = .error (.keyError "id")
    ∧ getAttr hC5 "id" ≠ none :=
  ⟨rfl, c5_missing_identifier.1 0 parC5 hC5noid 1 rfl,
   c5_missing_identifier.2 2 soupC5b [recC5] rfl (hC5, divC5)
     (by rw [show findAllFrom (ctag_class 1) soupC5b = [(hC5, divC5)] from rfl]
         exact List.mem_cons_self _ _)⟩

def imgC6 : HNode := .elem "img" [("data-pid", "nla.obj-999")] (some ["thumbnail"]) []

def hC6 : HNode := .elem "h3" [("id", "d1")] (some ["ctag-heading", "c03"]) [.text "Dig"]

def parC6 : HNode := .elem "div" [] (some ["image-and-title"]) [hC6, imgC6]

def parC6b : HNode := .elem "div" [] (some ["image-and-title"]) [hC6]

def imgC6c : HNode := .elem "img" [] (some ["thumbnail"]) []

def parC6c : HNode := .elem "div" [] (some ["image-and-title"]) [hC6, imgC6c]

def recC6 : Details := .mk "d1" "Dig" "" true (some "nla.obj-999") []

/-- C6 (witness): on a concrete digitised node with a thumbnail carrying
`data-pid="nla.obj-999"` the extracted record has `digitised = true` and
first page `"nla.obj-999"`; with no thumbnail image the first page becomes
`none`; with a thumbnail lacking the attribute it stays `""`; and in each
case extraction succeeds. -/
theorem c6_witness :
    is_digitised parC6 = true
    ∧ recC6.digitised = is_digitised parC6
    ∧ recC6.first_page = first_page_of parC6
    ∧ first_page_of parC6 = some "nla.obj-999"
    ∧ first_page_of parC6b = none
    ∧ first_page_of parC6c = some ""
    ∧ extractNodeDetails 1 parC6 hC6 3 = .ok recC6 :=
  ⟨(c6_digitised_first_page.1 parC6).mpr ⟨["image-and-title"], rfl, by decide⟩,
   (c6_digitised_first_page.2.1 1 parC6 hC6 3 recC6 rfl).1,
   (c6_digitised_first_page.2.1 1 parC6 hC6 3 recC6 rfl).2,
   c6_digitised_first_page.2.2.1 parC6 imgC6 "nla.obj-999" rfl rfl rfl,
   c6_digitised_first_page.2.2.2.1 parC6b rfl rfl,
   c6_digitised_first_page.2.2.2.2.1 parC6c imgC6c rfl rfl rfl,
   c6_digitised_first_page.2.2.2.2.2 0 parC6 hC6 3 "d1" [] rfl rfl⟩

def dtC7 : HNode := .elem "dt" [] none [.text "Creator"]

def dlC7 : HNode := .elem "dl" [] none [dtC7]

def headC7 : HNode := .elem "div" [("id", "collection-summary")] none [.text "Summary"]

/-- A document with a collection-summary region whose single `<dt>` label has
no following `<dd>` sibling. -/
def soupC7 : HNode := .elem "body" [] none [headC7, dlC7]

def soupC7e : HNode := .elem "html" [] none []

/-- C7 (counterexample): on the concrete document whose summary label has no
following definition value, `get_fa_summary` raises `AttributeError` — the
label is not skipped and the extraction does fail, contrary to the claim. -/
theorem c7_counterexample :
    get_fa_summary soupC7 = .error .attributeError
    ∧ ∀ m : List (String × String), get_fa_summary soupC7 ≠ .ok m := by
  refine ⟨rfl, ?_⟩
  intro m h
  rw [show get_fa_summary soupC7 = Except.error PyErr.attributeError from rfl] at h
  exact Except.noConfusion h

/-- C7 (witness): the amended behaviour on concrete documents — the
value-less label fails the summary extraction, and the fallback fields of an
empty document are empty strings. -/
theorem c7_witness :
    get_fa_summary soupC7 = .error .attributeError
    ∧ get_string_by_id soupC7e "h1" "contentrow" = ""
    ∧ get_string_by_id soupC7e "h2" "collection-number" = "" :=
  ⟨c7_label_without_value.1 soupC7 headC7 dlC7 dtC7 [dlC7] [] rfl rfl
     (by rw [show findAllTagCtx "dt" dlC7 = [(dtC7, ([] : List HNode))] from rfl]
         exact List.mem_cons_self _ _) rfl,
   (c7_label_without_value.2 soupC7e).1 rfl,
   (c7_label_without_value.2 soupC7e).2 rfl⟩

def hA8 : HNode := .elem "h3" [("id", "a")] (some ["ctag-heading", "c01"]) [.text "A"]

def divA8 : HNode := .elem "div" [] none [hA8]

def hB8 : HNode := .elem "h3" [("id", "b")] (some ["ctag-heading", "c01"]) [.text "B"]

def divB8 : HNode := .elem "div" [] none [hB8]

/-- A document with two level-1 headings and no deeper headings. -/
def soupC8 : HNode := .elem "body" [] none [divA8, divB8]

def leafA8 : Details := .mk "a" "A" "" false (some "") []

def leafB8 : Details := .mk "b" "B" "" false (some "") []

/-- C8 (witness): on a concrete document with two level-1 headings and no
deeper headings, extraction yields two childless nodes and `find_leaves`
returns exactly them in order. -/
theorem c8_witness :
    ([leafA8, leafB8] : List Details).length = (findAllFrom (ctag_class 1) soupC8).length
    ∧ (∀ d ∈ ([leafA8, leafB8] : List Details), d.children = [])
    ∧ find_leaves [leafA8, leafB8] = [leafA8, leafB8] :=
  c8_find_leaves.2 3 soupC8 [leafA8, leafB8]
    (by intro np h
        rw [show findAllFrom (ctag_class 1) soupC8 = [(hA8, divA8), (hB8, divB8)] from rfl] at h
        rcases List.mem_cons.mp h with h | h
        · subst h; rfl
        · rcases List.mem_cons.mp h with h | h
          · subst h; rfl
          · simp at h)
    rfl

def pC9 : HNode := .elem "p" [] none [.elem "b" [] none [.text "x"], .text "y"]

def hC9 : HNode := .elem "h3" [("id", "p1")] (some ["ctag-heading", "c01"]) [.text "T"]

def parC9 : HNode := .elem "div" [] none [hC9, pC9]

def recC9 : Details := .mk "p1" "T" "None" false (some "") []

/-- C9 (witness): the concrete paragraph with nested markup contributes the
literal `"None"` to the description of the extracted node. -/
theorem c9_witness :
    "None" ∈ descFragments parC9
    ∧ recC9.description = joinSep "\n" (descFragments parC9) :=
  c9_none_in_description 1 parC9 hC9 1 recC9 [] none
    [.elem "b" [] none [.text "x"], .text "y"] rfl
    (by rw [show childNodes parC9 = [hC9, pC9] from rfl]
        exact List.mem_cons_of_mem _ (List.mem_cons_self _ _))
    rfl

/-- A document with no collection-summary region but with the fallback title
and collection-number elements. -/
def soupC10 : HNode := .elem "html" [] none
  [.elem "h1" [("id", "contentrow")] none [.text "My Title"],
   .elem "h2" [("id", "collection-number")] none [.text "MS 1"]]

def faC10 : List (String × String) := [("title", "My Title"), ("collection_number", "MS 1")]

/-- C10 (witness): on a concrete document whose summary mapping is empty, the
conversion's summary part is exactly the two fallback fields. -/
theorem c10_witness :
    convert_finding_aid 1 soupC10 = .ok (faC10, [])
    ∧ faC10 = get_fa_details soupC10 :=
  ⟨rfl, (c10_summary_fallback 1 soupC10 [] (faC10, []) rfl rfl).1 rfl⟩

/-- C1 (witness): the amended children-scope property instantiated on a
concrete extraction. -/
theorem c1_witness :
    s1Rec.children.length = (findAllFrom (ctag_class 2) div1C1).length
    ∧ ∃ np, np ∈ findAllFrom (ctag_class 2) div1C1
        ∧ class_match np.1 (ctag_class 2) = true
        ∧ is_descendant np.1 div1C1 = true
        ∧ ∃ f, extractNodeDetails f np.2 np.1 2 = .ok bRec :=
  ⟨(c1_children_scope 4 div1C1 h1C1 1 s1Rec rfl).1,
   (c1_children_scope 4 div1C1 h1C1 1 s1Rec rfl).2 bRec
     (by rw [show s1Rec.children = [bRec] from rfl]
         exact List.mem_cons_self _ _)⟩

/-- C4 (witness): the amended marker-format property instantiated at marker
indices 2 and 10 and on a concrete extraction. -/
theorem c4_witness :
    ctag_class 2 = spec_marker_class 2
    ∧ ctag_class 10 ≠ spec_marker_class 10
    ∧ s1Rec.children.length = (findAllFrom (ctag_class 2) div1C1).length :=
  ⟨c4_marker_format.1 2 (by decide), c4_marker_format.2.1 10 (by decide) (by decide),
   c4_marker_format.2.2 4 div1C1 h1C1 1 s1Rec rfl⟩
